import Mathlib

/-!
Verification of the project-finance-dashboard frontend (React/JS).

The repository holds several near-duplicate revisions of one dashboard
component:

* `src/frontend/src/App.jsx` — "App.jsx revision": plain `SmartInput`,
  a debounce effect cleaning each field with `parseFloat(v) || 0`, and a
  `fetchData` that POSTs a nine-field JSON body to `/calculate-model`.
* `src/frontend/src/FinancialTable.jsx` — two revisions; the first has the
  same debounce/fetch shape as App.jsx, the second maps a different input
  record to backend keys and guards `setData` with `result.annual_data`.
* `src/unnamed/part_001` — the "accounting format" revision with
  `formatNumber`, `cleanNumber`, `sanitizeNumericInput`, a comma-stripping
  debounce and a comma-stripping `cleanValue` in `fetchData`.

JavaScript values relevant to that code are embedded as `JSVal`: finite
numbers are rationals (ℚ), `NaN` is a separate constructor, plus strings,
`null` and `undefined`.  The model of the numeric string builtins
(`parseFloat`, `parseInt`, `Number` coercion) covers sign, decimal digits,
a decimal point and an exponent part — the grammar actually reachable from
the dashboard's numeric input fields; the exotic literal forms
(`Infinity`, hexadecimal, radix prefixes) are outside the model.
-/

set_option maxRecDepth 2000

/-- A JavaScript value as used by the dashboard code: a finite number
(`num`, modelled as ℚ), `NaN`, a string, `null` or `undefined`. -/
inductive JSVal where
  | num (q : ℚ)
  | nan
  | str (s : String)
  | null
  | undefV
deriving DecidableEq, Repr

/-- JS truthiness: `0`, `NaN`, `""`, `null`, `undefined` are falsy. -/
def jsTruthy : JSVal → Bool
  | .num q => decide (q ≠ 0)
  | .nan => false
  | .str s => decide (s ≠ "")
  | .null => false
  | .undefV => false

/-- JS `a || b`: `a` if truthy, else `b`. -/
def jsOr (a b : JSVal) : JSVal := if jsTruthy a then a else b

/-- ASCII whitespace accepted by the JS numeric builtins (space, tab,
newline, vertical tab, form feed, carriage return). -/
def isWs (c : Char) : Bool :=
  c.toNat == 32 || c.toNat == 9 || c.toNat == 10 ||
  c.toNat == 11 || c.toNat == 12 || c.toNat == 13

/-- Decimal digit test (`'0'`–`'9'`). -/
def isDigitC (c : Char) : Bool := 48 ≤ c.toNat && c.toNat ≤ 57

/-- Numeric value of a decimal digit character. -/
def digitValC (c : Char) : ℕ := c.toNat - 48

/-- Value of a most-significant-first digit string. -/
def natOfDigits (l : List Char) : ℕ :=
  l.foldl (fun a c => 10 * a + digitValC c) 0

/-- Exponent suffix of `parseFloat` after the `e`/`E`: an optional sign and
digits; an empty digit run leaves the base value unchanged (JS backtracks
over an invalid exponent). -/
def expScale (base : ℚ) (t : List Char) : ℚ :=
  let st : Bool × List Char :=
    match t with
    | '-' :: u => (true, u)
    | '+' :: u => (false, u)
    | _ => (false, t)
  let ed := st.2.takeWhile isDigitC
  if ed.isEmpty then base
  else if st.1 then base / 10 ^ natOfDigits ed
  else base * 10 ^ natOfDigits ed

/-- Apply an optional exponent part to a parsed mantissa. -/
def applyExp (base : ℚ) (r : List Char) : ℚ :=
  match r with
  | 'e' :: t => expScale base t
  | 'E' :: t => expScale base t
  | _ => base

/-- `parseFloat` after sign handling: longest prefix
`digits [. digits] [exponent]`; `none` (= NaN) if no digit was consumed. -/
def parseFloatCore (l : List Char) : Option ℚ :=
  let ip := l.takeWhile isDigitC
  let r1 := l.dropWhile isDigitC
  let fp : List Char :=
    match r1 with
    | '.' :: t => t.takeWhile isDigitC
    | _ => []
  let r2 : List Char :=
    match r1 with
    | '.' :: t => t.dropWhile isDigitC
    | _ => r1
  if ip.isEmpty && fp.isEmpty then none
  else some (applyExp ((natOfDigits ip : ℚ) + (natOfDigits fp : ℚ) / 10 ^ fp.length) r2)

/-- JS `parseFloat` on a character list: skip leading whitespace, optional
sign, then the longest numeric prefix; `none` models NaN. -/
def parseFloatL (l0 : List Char) : Option ℚ :=
  let l := l0.dropWhile isWs
  match l with
  | [] => none
  | c :: t =>
    if c = '-' then (parseFloatCore t).map (fun q => -q)
    else if c = '+' then parseFloatCore t
    else parseFloatCore l

/-- JS `parseFloat` on a string. -/
def parseFloatStr (s : String) : Option ℚ := parseFloatL s.data

/-- JS `parseInt` (radix 10, no `0x` handling): skip whitespace, optional
sign, then the longest digit prefix; `none` models NaN. -/
def parseIntL (l0 : List Char) : Option ℤ :=
  let l := l0.dropWhile isWs
  match l with
  | [] => none
  | c :: t =>
    if c = '-' then
      match t.takeWhile isDigitC with
      | [] => none
      | ds => some (-(natOfDigits ds : ℤ))
    else if c = '+' then
      match t.takeWhile isDigitC with
      | [] => none
      | ds => some ((natOfDigits ds : ℤ))
    else
      match l.takeWhile isDigitC with
      | [] => none
      | ds => some ((natOfDigits ds : ℤ))

/-- Exponent part of a full `Number` string literal: sign and a nonempty
digit run consuming the rest of the string, else NaN. -/
def expFull (base : ℚ) (t : List Char) : Option ℚ :=
  let st : Bool × List Char :=
    match t with
    | '-' :: u => (true, u)
    | '+' :: u => (false, u)
    | _ => (false, t)
  let ed := st.2.takeWhile isDigitC
  let r3 := st.2.dropWhile isDigitC
  if ed.isEmpty || !r3.isEmpty then none
  else if st.1 then some (base / 10 ^ natOfDigits ed)
  else some (base * 10 ^ natOfDigits ed)

/-- Remainder check for a full `Number` literal after the mantissa. -/
def numLitTail (base : ℚ) (r : List Char) : Option ℚ :=
  match r with
  | [] => some base
  | 'e' :: t => expFull base t
  | 'E' :: t => expFull base t
  | _ => none

/-- A full (entirely consumed) unsigned `Number` decimal literal. -/
def numLitCore (l : List Char) : Option ℚ :=
  let ip := l.takeWhile isDigitC
  let r1 := l.dropWhile isDigitC
  let fp : List Char :=
    match r1 with
    | '.' :: t => t.takeWhile isDigitC
    | _ => []
  let r2 : List Char :=
    match r1 with
    | '.' :: t => t.dropWhile isDigitC
    | _ => r1
  if ip.isEmpty && fp.isEmpty then none
  else numLitTail ((natOfDigits ip : ℚ) + (natOfDigits fp : ℚ) / 10 ^ fp.length) r2

/-- JS `Number` coercion of a string: trimmed-empty is `0`, otherwise the
whole trimmed string must be a signed decimal literal; `none` models NaN. -/
def strToNumber (s : String) : Option ℚ :=
  let t := ((s.data.dropWhile isWs).reverse.dropWhile isWs).reverse
  match t with
  | [] => some 0
  | c :: u =>
    if c = '-' then (numLitCore u).map (fun q => -q)
    else if c = '+' then numLitCore u
    else numLitCore t

/-- JS `Number(v)` coercion; `none` models NaN. -/
def jsToNumber : JSVal → Option ℚ
  | .num q => some q
  | .nan => none
  | .null => some 0
  | .undefV => none
  | .str s => strToNumber s

/-- JS global `isNaN`: `Number` coercion yields NaN. -/
def jsIsNaN (v : JSVal) : Bool := (jsToNumber v).isNone

/-- Truncation toward zero, the integer JS `parseInt` extracts from the
plain decimal rendering of a finite number. -/
def truncQ (q : ℚ) : ℤ := if 0 ≤ q then ⌊q⌋ else -⌊-q⌋

/-- JS `parseFloat(v)`: non-strings are first converted to strings
(`String(q)` re-parses to `q` for finite numbers; `"NaN"`, `"null"` and
`"undefined"` have no numeric prefix). -/
def jsParseFloat : JSVal → Option ℚ
  | .num q => some q
  | .nan => none
  | .null => none
  | .undefV => none
  | .str s => parseFloatStr s

/-- `parseFloat(v)` as a JS value (`NaN` when the parse fails). -/
def parseFloatV (v : JSVal) : JSVal :=
  match jsParseFloat v with
  | some q => .num q
  | none => .nan

/-- JS `parseInt(v)`: non-strings go through their decimal rendering, so a
finite number truncates toward zero. -/
def jsParseInt : JSVal → Option ℤ
  | .num q => some (truncQ q)
  | .nan => none
  | .null => none
  | .undefV => none
  | .str s => parseIntL s.data

/-- `parseInt(v)` as a JS value (`NaN` when the parse fails). -/
def parseIntV (v : JSVal) : JSVal :=
  match jsParseInt v with
  | some z => .num (z : ℚ)
  | none => .nan

/-- `str.replace(/,/g, '')` on a character list. -/
def stripCommasL (l : List Char) : List Char := l.filter (fun c => c ≠ ',')

/-- `str.replace(/,/g, '')` on a string. -/
def stripCommasStr (s : String) : String := String.mk (stripCommasL s.data)

/-! ## Accounting-format helpers of `src/unnamed/part_001` -/

/-- Little-endian digit list of a natural number (empty for `0`). -/
def natDigitsRevList (n : ℕ) : List ℕ :=
  if h : n = 0 then []
  else n % 10 :: natDigitsRevList (n / 10)
termination_by n
decreasing_by exact Nat.div_lt_self (Nat.pos_of_ne_zero h) (by omega)

/-- The character of a decimal digit. -/
def digitChar : ℕ → Char
  | 0 => '0'
  | 1 => '1'
  | 2 => '2'
  | 3 => '3'
  | 4 => '4'
  | 5 => '5'
  | 6 => '6'
  | 7 => '7'
  | 8 => '8'
  | _ => '9'

/-- Most-significant-first decimal digit characters of a natural number. -/
def natToDigitChars (n : ℕ) : List Char :=
  if n = 0 then ['0'] else ((natDigitsRevList n).map digitChar).reverse

/-- Insert a `','` after every three characters of a reversed digit list
(the reversed form of en-US thousand grouping). -/
def groupRev (l : List Char) : List Char :=
  if _h : l.length ≤ 3 then l
  else l.take 3 ++ ',' :: groupRev (l.drop 3)
termination_by l.length
decreasing_by simp only [List.length_drop]; omega

/-- en-US thousand grouping of a digit string (`"1234"` ↦ `"1,234"`). -/
def groupDigits (ds : List Char) : List Char := (groupRev ds.reverse).reverse

/-- Exactly two decimal digits of a number below 100. -/
def twoDigitChars (k : ℕ) : List Char := [digitChar (k / 10), digitChar (k % 10)]

/-- `toLocaleString('en-US', { minimumFractionDigits: 2,
maximumFractionDigits: 2 })`: round to two decimals (half away from zero,
the Intl default), group the integer digits in threes, print exactly two
fraction digits. -/
def toLocale2Chars (q : ℚ) : List Char :=
  let m : ℤ := if q < 0 then -⌊(-q) * 100 + 1 / 2⌋ else ⌊q * 100 + 1 / 2⌋
  let a : ℕ := m.natAbs
  (if m < 0 then ['-'] else []) ++
    groupDigits (natToDigitChars (a / 100)) ++ '.' :: twoDigitChars (a % 100)

/-- `formatNumber` of part_001 (lines 19–27): `''` on `null`/`''`/NaN;
strings are comma-stripped and re-parsed (note the earlier `isNaN(num)`
guard already rejects a string that `Number` cannot coerce); finite
numbers are rendered with `toLocaleString('en-US', …)` at two decimals. -/
def formatNumber : JSVal → String
  | .null => ""
  | .undefV => ""
  | .nan => ""
  | .num q => String.mk (toLocale2Chars q)
  | .str s =>
    if s = "" then ""
    else if jsIsNaN (.str s) then ""
    else
      match parseFloatStr (stripCommasStr s) with
      | none => ""
      | some q => String.mk (toLocale2Chars q)

/-- `cleanNumber` of part_001 (lines 29–32): `''` for a falsy argument,
otherwise remove every comma.  Its call sites pass strings, so the model
takes a string. -/
def cleanNumber (s : String) : String :=
  if s = "" then "" else stripCommasStr s

/-- First segment before a `'.'` and the list of the remaining
dot-separated segments — `str.split('.')` with the head made explicit. -/
def splitDot : List Char → List Char × List (List Char)
  | [] => ([], [])
  | c :: t =>
    let pr := splitDot t
    if c = '.' then ([], pr.1 :: pr.2) else (c :: pr.1, pr.2)

/-- `sanitizeNumericInput` of part_001 (lines 35–45): drop every character
that is not a digit or a dot, then, when more than one dot remains, keep
the first dot and concatenate everything after it
(`parts[0] + '.' + parts.slice(1).join('')`). -/
def sanitizeNumericInput (s : String) : String :=
  if s = "" then ""
  else
    let cleaned := s.data.filter (fun c => isDigitC c || c = '.')
    let pr := splitDot cleaned
    if pr.2.length + 1 > 2 then String.mk (pr.1 ++ '.' :: pr.2.flatten)
    else String.mk cleaned

/-- `cleanValue` inside part_001's `fetchData` (lines 182–186): `0` for
`null`/`undefined`, otherwise `parseFloat` of the comma-stripped decimal
rendering, with `|| 0` collapsing NaN (and `0`) to `0`.  A finite number
round-trips through its rendering, `String(NaN) = "NaN"` has no numeric
prefix. -/
def cleanValue : JSVal → JSVal
  | .null => .num 0
  | .undefV => .num 0
  | .num q => jsOr (parseFloatV (.num q)) (.num 0)
  | .nan => .num 0
  | .str s => jsOr (parseFloatV (.str (stripCommasStr s))) (.num 0)

/-! ## SmartInput blur handler (plain mode) -/

/-- Outcome of a `handleBlur` run: the new local buffer, the new focus
flag, and the argument of the `onChange` callback when it was invoked. -/
structure BlurResult where
  newLocal : JSVal
  newFocused : Bool
  onChangeArg : Option JSVal
deriving DecidableEq, Repr

/-- `handleBlur` of the plain (non-accounting) `SmartInput`, identical in
App.jsx (lines 20–27), FinancialTable.jsx (lines 28–36) and the
non-accounting branch of part_001 (lines 100–106): when the buffer is
`''` or `isNaN` rejects it, restore the parent value and do not call
`onChange`; otherwise call `onChange(parseFloat(localValue))`. -/
def handleBlur_plain (localValue value : JSVal) : BlurResult :=
  if localValue = .str "" ∨ jsIsNaN localValue = true then
    { newLocal := value, newFocused := false, onChangeArg := none }
  else
    { newLocal := localValue, newFocused := false, onChangeArg := some (parseFloatV localValue) }

/-! ## Debounce cleaning -/

/-- One field of the debounce effect of App.jsx (lines 81–91) and of the
first FinancialTable revision (lines 120–131): `parseFloat(inputs[key]) || 0`. -/
def cleanStep_app (v : JSVal) : JSVal := jsOr (parseFloatV v) (.num 0)

/-- The cleaned record `cleanInputs` the App.jsx debounce commits:
`Object.keys(inputs)` is mapped field by field. -/
def debounceClean_app (inputs : List (String × JSVal)) : List (String × JSVal) :=
  inputs.map (fun kv => (kv.1, cleanStep_app kv.2))

/-- One field of the part_001 debounce (lines 162–174):
`parseFloat((inputs[key]?.toString().replace(/,/g, '') || '0')) || 0` —
commas are stripped before parsing, and a nullish or empty field falls
back to the string `'0'`. -/
def cleanStep_p1 : JSVal → JSVal
  | .null => .num 0
  | .undefV => .num 0
  | .num q => jsOr (parseFloatV (.num q)) (.num 0)
  | .nan => .num 0
  | .str s => jsOr (parseFloatV (.str (stripCommasStr s))) (.num 0)

/-- The cleaned record the part_001 debounce commits. -/
def debounceClean_p1 (inputs : List (String × JSVal)) : List (String × JSVal) :=
  inputs.map (fun kv => (kv.1, cleanStep_p1 kv.2))

/-! ## fetchData: request construction and state effects -/

/-- Field access `record.key` on a JS object modelled as a key/value
list; a missing key reads as `undefined`. -/
def getField (r : List (String × JSVal)) (k : String) : JSVal :=
  match r.lookup k with
  | some v => v
  | none => .undefV

/-- The endpoint both App.jsx and part_001 POST to. -/
def calcUrl : String := "https://project-finance-dashboard.onrender.com/calculate-model"

/-- An outgoing HTTP request: URL, method, `Content-Type` header and the
record passed to `JSON.stringify` as the body. -/
structure Request where
  url : String
  method : String
  contentType : String
  payload : List (String × JSVal)

/-- The request body of App.jsx `fetchData` (lines 97–107), also the body
of the first FinancialTable revision (lines 138–148): each field is
`parseFloat(debouncedInputs.x) || 0`, except the duration which is
`parseInt(debouncedInputs.projectDuration) || 25`. -/
def fetchBody_app (d : List (String × JSVal)) : List (String × JSVal) :=
  [ ("hard_costs", jsOr (parseFloatV (getField d "hardCosts")) (.num 0)),
    ("soft_costs", jsOr (parseFloatV (getField d "softCosts")) (.num 0)),
    ("annual_production_mwh", jsOr (parseFloatV (getField d "production")) (.num 0)),
    ("annual_revenue", jsOr (parseFloatV (getField d "annualRevenue")) (.num 0)),
    ("annual_opex", jsOr (parseFloatV (getField d "annualOpex")) (.num 0)),
    ("tax_rate", jsOr (parseFloatV (getField d "taxRate")) (.num 0)),
    ("interest_rate", jsOr (parseFloatV (getField d "interestRate")) (.num 0)),
    ("debt_share", jsOr (parseFloatV (getField d "debtShare")) (.num 0)),
    ("project_duration_years", jsOr (parseIntV (getField d "projectDuration")) (.num 25)) ]

/-- The full request App.jsx `fetchData` passes to `fetch` (lines
111–115): POST, JSON content type, body `JSON.stringify` of
`fetchBody_app`. -/
def fetchRequest_app (d : List (String × JSVal)) : Request :=
  { url := calcUrl, method := "POST", contentType := "application/json",
    payload := fetchBody_app d }

/-- The request body of part_001 `fetchData` (lines 188–200): every field
goes through `cleanValue`, the duration additionally through
`parseInt(...) || 25`. -/
def fetchBody_p1 (d : List (String × JSVal)) : List (String × JSVal) :=
  [ ("hard_costs", cleanValue (getField d "hardCosts")),
    ("soft_costs", cleanValue (getField d "softCosts")),
    ("annual_revenue", cleanValue (getField d "annualRevenue")),
    ("annual_opex", cleanValue (getField d "annualOpex")),
    ("annual_production_mwh", cleanValue (getField d "production")),
    ("tax_rate", cleanValue (getField d "taxRate")),
    ("interest_rate", cleanValue (getField d "interestRate")),
    ("debt_share", cleanValue (getField d "debtShare")),
    ("project_duration_years", jsOr (parseIntV (cleanValue (getField d "projectDuration"))) (.num 25)) ]

/-- The full request part_001 `fetchData` passes to `fetch` (lines 204–208). -/
def fetchRequest_p1 (d : List (String × JSVal)) : Request :=
  { url := calcUrl, method := "POST", contentType := "application/json",
    payload := fetchBody_p1 d }

/-- How one `fetchData` call ends: the `fetch` promise rejects, the
`response.json()` decoding rejects, or a parsed result object arrives. -/
inductive FetchOutcome where
  | netError
  | decodeError
  | ok (result : List (String × JSVal))

/-- The state a `fetchData` call leaves behind: the `data` state, the
`loading` flag, how many HTTP requests were issued and how many
`console.error` calls were made.  No other state exists — in particular
none of the revisions has an error state. -/
structure FetchResult where
  data' : Option (List (String × JSVal))
  loading' : Bool
  posts : ℕ
  errorLogs : ℕ
deriving DecidableEq, Repr

/-- The App.jsx `fetchData` control flow (lines 94–122): `setLoading(true)`,
one `fetch`, `setData(result)` on success; any rejection lands in the
`catch`, which only calls `console.error`; `setLoading(false)` runs in
every path. -/
def fetchRun_app (o : FetchOutcome) (data : Option (List (String × JSVal))) : FetchResult :=
  match o with
  | .netError => { data' := data, loading' := false, posts := 1, errorLogs := 1 }
  | .decodeError => { data' := data, loading' := false, posts := 1, errorLogs := 1 }
  | .ok r => { data' := some r, loading' := false, posts := 1, errorLogs := 0 }

/-- The part_001 `fetchData` control flow (lines 177–215) — identical to
App.jsx: catch logs to the console only, `setData` runs only on success. -/
def fetchRun_p1 (o : FetchOutcome) (data : Option (List (String × JSVal))) : FetchResult :=
  match o with
  | .netError => { data' := data, loading' := false, posts := 1, errorLogs := 1 }
  | .decodeError => { data' := data, loading' := false, posts := 1, errorLogs := 1 }
  | .ok r => { data' := some r, loading' := false, posts := 1, errorLogs := 0 }

/-- The second FinancialTable revision's `fetchData` (lines 422–477): as
App.jsx, but the parsed result is stored only behind
`if (result.annual_data) setData(result)`. -/
def fetchRun_ft2 (o : FetchOutcome) (data : Option (List (String × JSVal))) : FetchResult :=
  match o with
  | .netError => { data' := data, loading' := false, posts := 1, errorLogs := 1 }
  | .decodeError => { data' := data, loading' := false, posts := 1, errorLogs := 1 }
  | .ok r =>
    { data' := if jsTruthy (getField r "annual_data") then some r else data,
      loading' := false, posts := 1, errorLogs := 0 }

/-! ## Debounce / fetch timing model (App.jsx)

The debounce effect (App.jsx lines 81–91) runs on mount and after every
`inputs` change; its cleanup `clearTimeout(handler)` cancels the handler
that same effect run created, and the effect then schedules a fresh
800 ms timeout whose callback commits `cleanInputs` with
`setDebouncedInputs`.  The fetch effect (lines 124–126) runs on mount and
whenever `debouncedInputs` changes (through the `useCallback` identity of
`fetchData`), starting one request; nothing ever aborts an in-flight
request.  States are driven by four events: a user edit, the passage of
time, the firing of a due timeout, and the completion of an in-flight
request. -/

/-- The debounce interval of every revision. -/
def debounceDelay : ℕ := 800

/-- Dashboard state: current wall-clock, the `inputs` record, a fresh
timeout-handle counter, the handle the last debounce effect created (the
one its cleanup would clear), the live timeouts as
`(handle, deadline, captured inputs)`, the time of the last `inputs`
change, the committed `debouncedInputs`, and fetch counters. -/
structure DashState where
  now : ℕ
  inputs : List (String × JSVal)
  nextH : ℕ
  current : Option ℕ
  live : List (ℕ × ℕ × List (String × JSVal))
  lastChangeAt : ℕ
  debounced : List (String × JSVal)
  commits : ℕ
  fetchesStarted : ℕ
  inflight : ℕ
  completed : ℕ

/-- Events driving the dashboard: a user edit of `inputs`, time passing,
a due timeout firing, an in-flight request completing. -/
inductive DEvent where
  | change (newInputs : List (String × JSVal))
  | advance (dt : ℕ)
  | fire
  | complete

/-- Mount state: both effects have already run once — one pending 800 ms
timeout capturing the initial inputs, and one initial fetch in flight
(`debouncedInputs` starts as the raw `inputs`). -/
def initDash (inputs0 : List (String × JSVal)) : DashState :=
  { now := 0, inputs := inputs0, nextH := 1, current := some 0,
    live := [(0, debounceDelay, inputs0)], lastChangeAt := 0,
    debounced := inputs0, commits := 0,
    fetchesStarted := 1, inflight := 1, completed := 0 }

/-- One event step.  `change`: the debounce cleanup clears the handler of
the previous effect run, then a new 800 ms timeout capturing the new
inputs is scheduled.  `fire`: a due timeout commits its cleaned snapshot
and the fetch effect starts exactly one request.  `complete`: one
in-flight request resolves. -/
def stepDash (s : DashState) (e : DEvent) : DashState :=
  match e with
  | .advance dt => { s with now := s.now + dt }
  | .change newI =>
    { s with
      inputs := newI,
      live := (s.live.filter (fun t => decide (some t.1 ≠ s.current))) ++
        [(s.nextH, s.now + debounceDelay, newI)],
      current := some s.nextH,
      nextH := s.nextH + 1,
      lastChangeAt := s.now }
  | .fire =>
    match s.live with
    | [] => s
    | (_, d, snap) :: rest =>
      if s.now < d then s
      else
        { s with
          live := rest,
          debounced := debounceClean_app snap,
          commits := s.commits + 1,
          fetchesStarted := s.fetchesStarted + 1,
          inflight := s.inflight + 1 }
  | .complete =>
    if s.inflight = 0 then s
    else { s with inflight := s.inflight - 1, completed := s.completed + 1 }

/-- Run a list of events from a state. -/
def runDash (s : DashState) : List DEvent → DashState
  | [] => s
  | e :: es => runDash (stepDash s e) es

/-! ## Further definitions used by the claim statements -/

/-- `Math.round(100 * n) / 100`: rounding to two decimal places with JS
`Math.round` (half toward positive infinity; on non-negative numbers this
agrees with the Intl half-away-from-zero rounding of
`toLocaleString`). -/
def round2 (q : ℚ) : ℚ := ((⌊q * 100 + 1 / 2⌋ : ℤ) : ℚ) / 100

/-- A JS value that is a non-negative finite number. -/
def isNonnegNum : JSVal → Bool
  | .num q => decide (0 ≤ q)
  | _ => false

/-- A JS value that is a finite number at all. -/
def isNumV : JSVal → Bool
  | .num _ => true
  | _ => false

/-- Invariant of the debounce/fetch machine: at most one live timeout; a
live timeout is the one the latest effect run scheduled — due exactly
`debounceDelay` after the last `inputs` change and capturing the current
`inputs`; the number of requests started is the number of debounce
commits plus the mount fetch; and started requests are exactly the
in-flight plus the completed ones (none is ever cancelled). -/
def dashInv (s : DashState) : Prop :=
  s.live.length ≤ 1 ∧
  (∀ t ∈ s.live, some t.1 = s.current ∧
    t.2.1 = s.lastChangeAt + debounceDelay ∧ t.2.2 = s.inputs) ∧
  s.fetchesStarted = s.commits + 1 ∧
  s.inflight + s.completed = s.fetchesStarted

/-! ## Digit-string lemmas -/

/-- Value of a little-endian digit list. -/
def valOfRev : List ℕ → ℕ
  | [] => 0
  | d :: ds => d + 10 * valOfRev ds

theorem valOfRev_natDigitsRevList (n : ℕ) : valOfRev (natDigitsRevList n) = n := by
  induction n using Nat.strong_induction_on with
  | _ n ih =>
    rw [natDigitsRevList]
    by_cases h : n = 0
    · simp [h, valOfRev]
    · have hd : n / 10 < n := Nat.div_lt_self (Nat.pos_of_ne_zero h) (by omega)
      simp only [h, dite_false, valOfRev, ih (n / 10) hd]
      omega

theorem natDigitsRevList_lt (n : ℕ) : ∀ d ∈ natDigitsRevList n, d < 10 := by
  induction n using Nat.strong_induction_on with
  | _ n ih =>
    rw [natDigitsRevList]
    by_cases h : n = 0
    · simp [h]
    · have hd : n / 10 < n := Nat.div_lt_self (Nat.pos_of_ne_zero h) (by omega)
      simp only [h, dite_false, List.mem_cons]
      rintro d (rfl | hm)
      · omega
      · exact ih (n / 10) hd d hm

theorem natDigitsRevList_ne_nil (n : ℕ) (h : n ≠ 0) : natDigitsRevList n ≠ [] := by
  rw [natDigitsRevList]
  simp [h]

theorem digitValC_digitChar (d : ℕ) (h : d < 10) : digitValC (digitChar d) = d := by
  interval_cases d <;> rfl

theorem isDigitC_digitChar (d : ℕ) (h : d < 10) : isDigitC (digitChar d) = true := by
  interval_cases d <;> rfl

theorem digitChar_ne_comma (d : ℕ) : digitChar d ≠ ',' := by
  unfold digitChar
  split <;> decide

theorem foldl_digits_general (l : List Char) :
    ∀ a : ℕ, l.foldl (fun a c => 10 * a + digitValC c) a =
      a * 10 ^ l.length + l.foldl (fun a c => 10 * a + digitValC c) 0 := by
  induction l with
  | nil => intro a; simp
  | cons c t ih =>
    intro a
    rw [List.foldl_cons, List.foldl_cons, ih (10 * a + digitValC c), ih (10 * 0 + digitValC c)]
    simp only [List.length_cons]
    ring

theorem foldl_digits_acc (l : List Char) :
    ∀ a : ℕ, l.foldl (fun a c => 10 * a + digitValC c) a =
      a * 10 ^ l.length + natOfDigits l :=
  foldl_digits_general l

theorem natOfDigits_concat (l : List Char) (c : Char) :
    natOfDigits (l ++ [c]) = 10 * natOfDigits l + digitValC c := by
  simp [natOfDigits, List.foldl_append]

theorem natOfDigits_reverse_map (ds : List ℕ) (h : ∀ d ∈ ds, d < 10) :
    natOfDigits ((ds.map digitChar).reverse) = valOfRev ds := by
  induction ds with
  | nil => simp [natOfDigits, valOfRev]
  | cons d t ih =>
    simp only [List.map_cons, List.reverse_cons, natOfDigits_concat, valOfRev]
    rw [ih (fun x hx => h x (List.mem_cons_of_mem _ hx)),
      digitValC_digitChar d (h d (List.mem_cons_self _ _))]
    ring

theorem natOfDigits_natToDigitChars (n : ℕ) : natOfDigits (natToDigitChars n) = n := by
  unfold natToDigitChars
  by_cases h : n = 0
  · subst h
    decide
  · simp only [h, if_false]
    rw [natOfDigits_reverse_map _ (natDigitsRevList_lt n), valOfRev_natDigitsRevList]

theorem natToDigitChars_digits (n : ℕ) : ∀ c ∈ natToDigitChars n, isDigitC c = true := by
  unfold natToDigitChars
  by_cases h : n = 0
  · simp only [h, if_true, List.mem_singleton]
    rintro c rfl
    decide
  · simp only [h, if_false, List.mem_reverse, List.mem_map]
    rintro c ⟨d, hd, rfl⟩
    exact isDigitC_digitChar d (natDigitsRevList_lt n d hd)

theorem natToDigitChars_ne_nil (n : ℕ) : natToDigitChars n ≠ [] := by
  unfold natToDigitChars
  by_cases h : n = 0
  · simp [h]
  · simp only [h, if_false, ne_eq, List.reverse_eq_nil_iff, List.map_eq_nil_iff]
    exact natDigitsRevList_ne_nil n h

theorem twoDigitChars_digits (k : ℕ) (h : k < 100) :
    ∀ c ∈ twoDigitChars k, isDigitC c = true := by
  intro c hc
  simp only [twoDigitChars, List.mem_cons, List.mem_singleton, List.not_mem_nil,
    or_false] at hc
  rcases hc with rfl | rfl
  · exact isDigitC_digitChar _ (by omega)
  · exact isDigitC_digitChar _ (Nat.mod_lt _ (by omega))

theorem natOfDigits_twoDigitChars (k : ℕ) (h : k < 100) :
    natOfDigits (twoDigitChars k) = k := by
  unfold twoDigitChars
  show natOfDigits ([digitChar (k / 10)] ++ [digitChar (k % 10)]) = k
  rw [natOfDigits_concat]
  have h1 : natOfDigits [digitChar (k / 10)] = k / 10 := by
    show natOfDigits ([] ++ [digitChar (k / 10)]) = k / 10
    rw [natOfDigits_concat]
    simp [natOfDigits, digitValC_digitChar _ (by omega : k / 10 < 10)]
  rw [h1, digitValC_digitChar _ (Nat.mod_lt _ (by omega))]
  omega

/-! ## takeWhile / dropWhile / filter lemmas -/

theorem takeWhile_append_all (p : Char → Bool) (l r : List Char)
    (h : ∀ c ∈ l, p c = true) :
    (l ++ r).takeWhile p = l ++ r.takeWhile p := by
  induction l with
  | nil => simp
  | cons c t ih =>
    have hc : p c = true := h c (List.mem_cons_self _ _)
    simp only [List.cons_append, List.takeWhile_cons, hc, if_true]
    rw [ih (fun x hx => h x (List.mem_cons_of_mem _ hx))]

theorem dropWhile_append_all (p : Char → Bool) (l r : List Char)
    (h : ∀ c ∈ l, p c = true) :
    (l ++ r).dropWhile p = r.dropWhile p := by
  induction l with
  | nil => simp
  | cons c t ih =>
    have hc : p c = true := h c (List.mem_cons_self _ _)
    simp only [List.cons_append, List.dropWhile_cons, hc, if_true]
    exact ih (fun x hx => h x (List.mem_cons_of_mem _ hx))

theorem takeWhile_eq_self_all (p : Char → Bool) (l : List Char)
    (h : ∀ c ∈ l, p c = true) : l.takeWhile p = l := by
  have := takeWhile_append_all p l [] h
  simpa using this

theorem dropWhile_eq_nil_all (p : Char → Bool) (l : List Char)
    (h : ∀ c ∈ l, p c = true) : l.dropWhile p = [] := by
  have := dropWhile_append_all p l [] h
  simpa using this

theorem stripCommasL_append (l r : List Char) :
    stripCommasL (l ++ r) = stripCommasL l ++ stripCommasL r := by
  simp [stripCommasL]

theorem stripCommasL_reverse (l : List Char) :
    stripCommasL l.reverse = (stripCommasL l).reverse := by
  unfold stripCommasL
  induction l with
  | nil => rfl
  | cons c t ih =>
    rw [List.reverse_cons, List.filter_append, ih, List.filter_cons]
    by_cases hc : c = ','
    · simp [hc]
    · simp [hc]

theorem stripCommasL_eq_self (l : List Char) (h : ∀ c ∈ l, c ≠ ',') :
    stripCommasL l = l := by
  unfold stripCommasL
  rw [List.filter_eq_self]
  intro a ha
  simpa using h a ha

theorem stripCommasL_groupRev_aux (n : ℕ) :
    ∀ l : List Char, l.length = n → stripCommasL (groupRev l) = stripCommasL l := by
  induction n using Nat.strong_induction_on with
  | _ n ih =>
    intro l hl
    rw [groupRev]
    by_cases h : l.length ≤ 3
    · simp [h]
    · simp only [h, dite_false]
      rw [stripCommasL_append]
      have hdrop : (l.drop 3).length < n := by
        simp only [List.length_drop]; omega
      have h2 : stripCommasL (',' :: groupRev (l.drop 3)) = stripCommasL (groupRev (l.drop 3)) := by
        simp [stripCommasL]
      rw [h2, ih (l.drop 3).length hdrop (l.drop 3) rfl, ← stripCommasL_append,
        List.take_append_drop]

theorem stripCommasL_groupRev (l : List Char) :
    stripCommasL (groupRev l) = stripCommasL l :=
  stripCommasL_groupRev_aux l.length l rfl

theorem stripCommasL_groupDigits (ds : List Char) (h : ∀ c ∈ ds, c ≠ ',') :
    stripCommasL (groupDigits ds) = ds := by
  unfold groupDigits
  rw [stripCommasL_reverse, stripCommasL_groupRev, stripCommasL_reverse,
    List.reverse_reverse, stripCommasL_eq_self ds h]

theorem isDigitC_not_ws (c : Char) (h : isDigitC c = true) : isWs c = false := by
  simp only [isDigitC, Bool.and_eq_true, decide_eq_true_eq] at h
  simp only [isWs, Bool.or_eq_false_iff, beq_eq_false_iff_ne, ne_eq]
  omega

theorem isDigitC_ne_minus (c : Char) (h : isDigitC c = true) : c ≠ '-' := by
  rintro rfl
  revert h
  decide

theorem isDigitC_ne_plus (c : Char) (h : isDigitC c = true) : c ≠ '+' := by
  rintro rfl
  revert h
  decide

theorem isDigitC_ne_dot (c : Char) (h : isDigitC c = true) : c ≠ '.' := by
  rintro rfl
  revert h
  decide

theorem isDigitC_ne_comma (c : Char) (h : isDigitC c = true) : c ≠ ',' := by
  rintro rfl
  revert h
  decide

/-! ## Parsing a canonical decimal digit string -/

theorem parseFloatCore_digits_dot (ds fs : List Char) (h1 : ds ≠ [])
    (h2 : ∀ c ∈ ds, isDigitC c = true) (h3 : ∀ c ∈ fs, isDigitC c = true) :
    parseFloatCore (ds ++ '.' :: fs) =
      some ((natOfDigits ds : ℚ) + (natOfDigits fs : ℚ) / 10 ^ fs.length) := by
  have hdot : isDigitC '.' = false := by decide
  have hip : (ds ++ '.' :: fs).takeWhile isDigitC = ds := by
    rw [takeWhile_append_all _ _ _ h2]
    simp [List.takeWhile_cons, hdot]
  have hr1 : (ds ++ '.' :: fs).dropWhile isDigitC = '.' :: fs := by
    rw [dropWhile_append_all _ _ _ h2]
    simp [List.dropWhile_cons, hdot]
  have hfp : fs.takeWhile isDigitC = fs := takeWhile_eq_self_all _ _ h3
  have hfd : fs.dropWhile isDigitC = [] := dropWhile_eq_nil_all _ _ h3
  have hds : ds.isEmpty = false := by
    cases ds with
    | nil => exact absurd rfl h1
    | cons c t => rfl
  simp only [parseFloatCore, hip, hr1, hfp, hfd, hds, Bool.false_and, if_false,
    Bool.false_eq_true, applyExp]

theorem parseFloatL_digits_dot (ds fs : List Char) (h1 : ds ≠ [])
    (h2 : ∀ c ∈ ds, isDigitC c = true) (h3 : ∀ c ∈ fs, isDigitC c = true) :
    parseFloatL (ds ++ '.' :: fs) =
      some ((natOfDigits ds : ℚ) + (natOfDigits fs : ℚ) / 10 ^ fs.length) := by
  obtain ⟨c, t, rfl⟩ : ∃ c t, ds = c :: t := by
    cases ds with
    | nil => exact absurd rfl h1
    | cons c t => exact ⟨c, t, rfl⟩
  have hc : isDigitC c = true := h2 c (List.mem_cons_self _ _)
  have hws : isWs c = false := isDigitC_not_ws c hc
  have hdw : (c :: (t ++ '.' :: fs)).dropWhile isWs = c :: (t ++ '.' :: fs) := by
    simp [List.dropWhile_cons, hws]
  simp only [List.cons_append, parseFloatL, hdw, if_neg (isDigitC_ne_minus c hc),
    if_neg (isDigitC_ne_plus c hc)]
  exact parseFloatCore_digits_dot (c :: t) fs h1 h2 h3

/-! ## The accounting round trip -/

theorem floor_nonneg_of_nonneg (q : ℚ) (h : 0 ≤ q) : (0 : ℤ) ≤ ⌊q * 100 + 1 / 2⌋ := by
  apply Int.le_floor.mpr
  push_cast
  nlinarith

theorem formatNumber_num_nonneg (q : ℚ) (h : 0 ≤ q) :
    formatNumber (.num q) =
      String.mk (groupDigits (natToDigitChars ((⌊q * 100 + 1 / 2⌋).toNat / 100)) ++
        '.' :: twoDigitChars ((⌊q * 100 + 1 / 2⌋).toNat % 100)) := by
  have hm := floor_nonneg_of_nonneg q h
  have hq : ¬ q < 0 := not_lt.mpr h
  have hm2 : ¬ (⌊q * 100 + 1 / 2⌋ < 0) := not_lt.mpr hm
  have habs : (⌊q * 100 + 1 / 2⌋).natAbs = (⌊q * 100 + 1 / 2⌋).toNat := by omega
  simp only [formatNumber, toLocale2Chars, hq, if_false, hm2, habs, List.nil_append]

theorem parse_strip_format (q : ℚ) (h : 0 ≤ q) :
    parseFloatStr (stripCommasStr (formatNumber (.num q))) = some (round2 q) := by
  have hm := floor_nonneg_of_nonneg q h
  have hds := natToDigitChars_digits ((⌊q * 100 + 1 / 2⌋).toNat / 100)
  have h100 : (⌊q * 100 + 1 / 2⌋).toNat % 100 < 100 := Nat.mod_lt _ (by omega)
  have hfs := twoDigitChars_digits ((⌊q * 100 + 1 / 2⌋).toNat % 100) h100
  rw [formatNumber_num_nonneg q h]
  show parseFloatL (stripCommasL (groupDigits (natToDigitChars ((⌊q * 100 + 1 / 2⌋).toNat / 100)) ++
    '.' :: twoDigitChars ((⌊q * 100 + 1 / 2⌋).toNat % 100))) = some (round2 q)
  rw [stripCommasL_append,
    stripCommasL_groupDigits _ (fun c hc => isDigitC_ne_comma c (hds c hc)),
    stripCommasL_eq_self ('.' :: twoDigitChars ((⌊q * 100 + 1 / 2⌋).toNat % 100)) (by
      intro c hc
      rcases List.mem_cons.mp hc with rfl | hc2
      · decide
      · exact isDigitC_ne_comma c (hfs c hc2)),
    parseFloatL_digits_dot _ _ (natToDigitChars_ne_nil _) hds hfs,
    natOfDigits_natToDigitChars, natOfDigits_twoDigitChars _ h100]
  congr 1
  have hdm : 100 * ((⌊q * 100 + 1 / 2⌋).toNat / 100) + (⌊q * 100 + 1 / 2⌋).toNat % 100 =
      (⌊q * 100 + 1 / 2⌋).toNat := Nat.div_add_mod _ 100
  have hcast : (((⌊q * 100 + 1 / 2⌋).toNat : ℕ) : ℚ) = ((⌊q * 100 + 1 / 2⌋ : ℤ) : ℚ) := by
    exact_mod_cast congrArg (fun z : ℤ => (z : ℚ)) (Int.toNat_of_nonneg hm)
  unfold round2
  rw [← hcast, ← congrArg (fun n : ℕ => ((n : ℕ) : ℚ)) hdm]
  push_cast
  have hl : ((twoDigitChars ((⌊q * 100 + 1 / 2⌋).toNat % 100)).length) = 2 := rfl
  rw [hl]
  ring

theorem format_ne_empty (q : ℚ) (h : 0 ≤ q) : formatNumber (.num q) ≠ "" := by
  rw [formatNumber_num_nonneg q h]
  intro hc
  have hd : groupDigits (natToDigitChars ((⌊q * 100 + 1 / 2⌋).toNat / 100)) ++
      '.' :: twoDigitChars ((⌊q * 100 + 1 / 2⌋).toNat % 100) = ([] : List Char) :=
    congrArg String.data hc
  simp at hd

theorem parse_clean_format (q : ℚ) (h : 0 ≤ q) :
    parseFloatStr (cleanNumber (formatNumber (.num q))) = some (round2 q) := by
  rw [cleanNumber, if_neg (format_ne_empty q h)]
  exact parse_strip_format q h

theorem cleanValue_format (q : ℚ) (h : 0 ≤ q) :
    cleanValue (.str (formatNumber (.num q))) = .num (round2 q) := by
  have hp := parse_strip_format q h
  simp only [cleanValue, parseFloatV, jsParseFloat, hp]
  by_cases hz : round2 q = 0
  · simp [jsOr, jsTruthy, hz]
  · simp [jsOr, jsTruthy, hz]

/-! ## splitDot lemmas (sanitizeNumericInput) -/

theorem splitDot_reconstruct (l : List Char) :
    l = (splitDot l).1 ++ ((splitDot l).2.map (fun r => '.' :: r)).flatten := by
  induction l with
  | nil => rfl
  | cons c t ih =>
    by_cases hc : c = '.'
    · subst hc
      simp only [splitDot, if_true]
      simpa using ih
    · simp only [splitDot, hc, if_false, List.cons_append]
      exact congrArg (c :: ·) ih

theorem splitDot_head_no_dot (l : List Char) : ∀ c ∈ (splitDot l).1, c ≠ '.' := by
  induction l with
  | nil => simp [splitDot]
  | cons c t ih =>
    by_cases hc : c = '.'
    · subst hc
      simp [splitDot]
    · simp only [splitDot, hc, if_false]
      intro x hx
      rcases List.mem_cons.mp hx with rfl | hx2
      · exact hc
      · exact ih x hx2

theorem splitDot_parts_no_dot (l : List Char) :
    ∀ r ∈ (splitDot l).2, ∀ c ∈ r, c ≠ '.' := by
  induction l with
  | nil => simp [splitDot]
  | cons c t ih =>
    by_cases hc : c = '.'
    · subst hc
      simp only [splitDot, if_true]
      intro r hr
      rcases List.mem_cons.mp hr with rfl | hr2
      · exact splitDot_head_no_dot t
      · exact ih r hr2
    · simp only [splitDot, hc, if_false]
      exact ih

theorem splitDot_count (l : List Char) : l.count '.' = (splitDot l).2.length := by
  induction l with
  | nil => rfl
  | cons c t ih =>
    by_cases hc : c = '.'
    · subst hc
      simp [splitDot, List.count_cons, ih]
    · simp [splitDot, List.count_cons, hc, ih]

theorem splitDot_head_takeWhile (l : List Char) :
    (splitDot l).1 = l.takeWhile (fun c => c ≠ '.') := by
  induction l with
  | nil => rfl
  | cons c t ih =>
    by_cases hc : c = '.'
    · subst hc
      simp [splitDot, List.takeWhile_cons]
    · simp [splitDot, List.takeWhile_cons, hc, ih]

theorem splitDot_filter (l : List Char) :
    l.filter (fun c => c ≠ '.') = (splitDot l).1 ++ (splitDot l).2.flatten := by
  induction l with
  | nil => rfl
  | cons c t ih =>
    by_cases hc : c = '.'
    · subst hc
      simp only [splitDot, if_true, List.filter_cons]
      simpa using ih
    · simp only [splitDot, hc, if_false, List.filter_cons]
      simp only [ne_eq, hc, not_false_eq_true, decide_True, List.cons_append]
      exact congrArg (c :: ·) ih

/-! ## Shape of cleaned values -/

theorem parseFloatV_or_num (v : JSVal) (d : ℚ) :
    ∃ q : ℚ, jsOr (parseFloatV v) (.num d) = .num q := by
  cases h : jsParseFloat v with
  | none => exact ⟨d, by simp [parseFloatV, h, jsOr, jsTruthy]⟩
  | some q =>
    by_cases hq : q = 0
    · exact ⟨d, by simp [parseFloatV, h, jsOr, jsTruthy, hq]⟩
    · exact ⟨q, by simp [parseFloatV, h, jsOr, jsTruthy, hq]⟩

theorem parseIntV_or_num (v : JSVal) (d : ℚ) :
    ∃ q : ℚ, jsOr (parseIntV v) (.num d) = .num q := by
  cases h : jsParseInt v with
  | none => exact ⟨d, by simp [parseIntV, h, jsOr, jsTruthy]⟩
  | some z =>
    by_cases hz : (z : ℚ) = 0
    · exact ⟨d, by simp [parseIntV, h, jsOr, jsTruthy, hz]⟩
    · exact ⟨(z : ℚ), by simp [parseIntV, h, jsOr, jsTruthy, hz]⟩

theorem cleanStep_app_num (v : JSVal) : ∃ q : ℚ, cleanStep_app v = .num q :=
  parseFloatV_or_num v 0

theorem cleanStep_p1_num (v : JSVal) : ∃ q : ℚ, cleanStep_p1 v = .num q := by
  cases v with
  | null => exact ⟨0, rfl⟩
  | undefV => exact ⟨0, rfl⟩
  | nan => exact ⟨0, rfl⟩
  | num q => exact parseFloatV_or_num (.num q) 0
  | str s => exact parseFloatV_or_num (.str (stripCommasStr s)) 0

theorem cleanValue_num (v : JSVal) : ∃ q : ℚ, cleanValue v = .num q := by
  cases v with
  | null => exact ⟨0, rfl⟩
  | undefV => exact ⟨0, rfl⟩
  | nan => exact ⟨0, rfl⟩
  | num q => exact parseFloatV_or_num (.num q) 0
  | str s => exact parseFloatV_or_num (.str (stripCommasStr s)) 0

theorem fetchBody_app_num (d : List (String × JSVal)) :
    ∀ kv ∈ fetchBody_app d, ∃ q : ℚ, kv.2 = .num q := by
  intro kv hkv
  simp only [fetchBody_app, List.mem_cons, List.not_mem_nil, or_false] at hkv
  rcases hkv with rfl | rfl | rfl | rfl | rfl | rfl | rfl | rfl | rfl
  · exact parseFloatV_or_num _ 0
  · exact parseFloatV_or_num _ 0
  · exact parseFloatV_or_num _ 0
  · exact parseFloatV_or_num _ 0
  · exact parseFloatV_or_num _ 0
  · exact parseFloatV_or_num _ 0
  · exact parseFloatV_or_num _ 0
  · exact parseFloatV_or_num _ 0
  · exact parseIntV_or_num _ 25

theorem fetchBody_p1_num (d : List (String × JSVal)) :
    ∀ kv ∈ fetchBody_p1 d, ∃ q : ℚ, kv.2 = .num q := by
  intro kv hkv
  simp only [fetchBody_p1, List.mem_cons, List.not_mem_nil, or_false] at hkv
  rcases hkv with rfl | rfl | rfl | rfl | rfl | rfl | rfl | rfl | rfl
  · exact cleanValue_num _
  · exact cleanValue_num _
  · exact cleanValue_num _
  · exact cleanValue_num _
  · exact cleanValue_num _
  · exact cleanValue_num _
  · exact cleanValue_num _
  · exact cleanValue_num _
  · exact parseIntV_or_num _ 25

/-! ## sanitizeNumericInput branch lemmas -/

theorem sanitize_eq_low (s : String)
    (h : (s.data.filter (fun c => isDigitC c || c = '.')).count '.' ≤ 1) :
    (sanitizeNumericInput s).data = s.data.filter (fun c => isDigitC c || c = '.') := by
  by_cases hs : s = ""
  · subst hs
    rfl
  · have hcount := splitDot_count (s.data.filter (fun c => isDigitC c || c = '.'))
    have hlen : ¬ ((splitDot (s.data.filter (fun c => isDigitC c || c = '.'))).2.length + 1 > 2) := by
      omega
    simp only [sanitizeNumericInput, hs, if_false, hlen, ite_false]

theorem sanitize_eq_high (s : String)
    (h : 2 ≤ (s.data.filter (fun c => isDigitC c || c = '.')).count '.') :
    (sanitizeNumericInput s).data =
      (splitDot (s.data.filter (fun c => isDigitC c || c = '.'))).1 ++
        '.' :: (splitDot (s.data.filter (fun c => isDigitC c || c = '.'))).2.flatten := by
  have hs : s ≠ "" := by
    intro hc
    subst hc
    simp [List.count_nil] at h
  have hcount := splitDot_count (s.data.filter (fun c => isDigitC c || c = '.'))
  have hlen : (splitDot (s.data.filter (fun c => isDigitC c || c = '.'))).2.length + 1 > 2 := by
    omega
  simp only [sanitizeNumericInput, hs, if_false, hlen, ite_true]

/-! ## Debounce machine invariant -/

theorem dashInv_init (inputs0 : List (String × JSVal)) : dashInv (initDash inputs0) := by
  refine ⟨by simp [initDash], ?_, by simp [initDash], by simp [initDash]⟩
  intro t ht
  simp only [initDash, List.mem_singleton] at ht
  subst ht
  exact ⟨rfl, rfl, rfl⟩

theorem dashInv_step (s : DashState) (e : DEvent) (h : dashInv s) : dashInv (stepDash s e) := by
  obtain ⟨h1, h2, h3, h4⟩ := h
  cases e with
  | advance dt =>
    exact ⟨h1, fun t ht => h2 t ht, h3, h4⟩
  | change newI =>
    have hfil : s.live.filter (fun t => decide (some t.1 ≠ s.current)) = [] := by
      rw [List.filter_eq_nil_iff]
      intro t ht
      simp only [decide_eq_true_eq, ne_eq, not_not]
      exact (h2 t ht).1
    simp only [dashInv, stepDash, hfil, List.nil_append]
    refine ⟨by simp, ?_, h3, h4⟩
    intro t ht
    simp only [List.mem_singleton] at ht
    subst ht
    exact ⟨rfl, rfl, rfl⟩
  | fire =>
    simp only [stepDash]
    cases hl : s.live with
    | nil => exact ⟨h1, h2, h3, h4⟩
    | cons hd rest =>
      obtain ⟨hh, d, snap⟩ := hd
      by_cases hnow : s.now < d
      · simp only [hnow, ite_true]
        exact ⟨h1, h2, h3, h4⟩
      · have hrest : rest = [] := by
          rw [hl] at h1
          simp only [List.length_cons] at h1
          exact List.length_eq_zero.mp (by omega)
        subst hrest
        simp only [hnow, ite_false]
        refine ⟨?_, ?_, ?_, ?_⟩
        · show ([] : List (ℕ × ℕ × List (String × JSVal))).length ≤ 1
          simp
        · intro t ht
          exact absurd ht (List.not_mem_nil t)
        · show s.fetchesStarted + 1 = s.commits + 1 + 1
          omega
        · show s.inflight + 1 + s.completed = s.fetchesStarted + 1
          omega
  | complete =>
    simp only [stepDash]
    by_cases hz : s.inflight = 0
    · simp only [hz, ite_true]
      exact ⟨h1, h2, h3, h4⟩
    · simp only [hz, ite_false]
      refine ⟨h1, h2, h3, ?_⟩
      show s.inflight - 1 + (s.completed + 1) = s.fetchesStarted
      omega

theorem dashInv_runAux (evs : List DEvent) :
    ∀ s : DashState, dashInv s → dashInv (runDash s evs) := by
  induction evs with
  | nil => intro s h; exact h
  | cons e t ih =>
    intro s h
    exact ih (stepDash s e) (dashInv_step s e h)

theorem dashInv_run (inputs0 : List (String × JSVal)) (evs : List DEvent) :
    dashInv (runDash (initDash inputs0) evs) :=
  dashInv_runAux evs (initDash inputs0) (dashInv_init inputs0)

theorem fire_commit (s : DashState) (h : dashInv s)
    (hc : (stepDash s .fire).commits = s.commits + 1) :
    (stepDash s .fire).debounced = debounceClean_app s.inputs ∧
    (stepDash s .fire).fetchesStarted = s.fetchesStarted + 1 := by
  obtain ⟨h1, h2, h3, h4⟩ := h
  cases hl : s.live with
  | nil =>
    have hstep : stepDash s .fire = s := by
      simp [stepDash, hl]
    rw [hstep] at hc
    exact absurd hc (by omega)
  | cons hd rest =>
    obtain ⟨hh, d, snap⟩ := hd
    by_cases hnow : s.now < d
    · have hstep : stepDash s .fire = s := by
        simp [stepDash, hl, hnow]
      rw [hstep] at hc
      exact absurd hc (by omega)
    · have hstep : stepDash s .fire = { s with live := rest, debounced := debounceClean_app snap, commits := s.commits + 1, fetchesStarted := s.fetchesStarted + 1, inflight := s.inflight + 1 } := by
        simp [stepDash, hl, hnow]
      have hsnap : snap = s.inputs :=
        (h2 (hh, d, snap) (by rw [hl]; exact List.mem_cons_self _ _)).2.2
      rw [hstep]
      exact ⟨by rw [hsnap], rfl⟩

/-! ## Claim theorems -/

/-- Claim C1: in the App.jsx revision, `fetchData` builds an HTTP POST to
the remote `/calculate-model` endpoint with `Content-Type:
application/json`, whose JSON body is the record with exactly the keys
`hard_costs`, `soft_costs`, `annual_production_mwh`, `annual_revenue`,
`annual_opex`, `tax_rate`, `interest_rate`, `debt_share`,
`project_duration_years`, and every value bound to those keys is a
(finite) number — for every debounced input state. -/
theorem C1_request_shape (d : List (String × JSVal)) :
    (fetchRequest_app d).method = "POST" ∧
    (fetchRequest_app d).contentType = "application/json" ∧
    (fetchRequest_app d).url = calcUrl ∧
    (∃ pre : List Char, calcUrl.data = pre ++ "/calculate-model".data) ∧
    ((fetchRequest_app d).payload.map Prod.fst =
      ["hard_costs", "soft_costs", "annual_production_mwh", "annual_revenue", "annual_opex",
       "tax_rate", "interest_rate", "debt_share", "project_duration_years"]) ∧
    (∀ kv ∈ (fetchRequest_app d).payload, ∃ q : ℚ, kv.2 = .num q) :=
  ⟨rfl, rfl, rfl, ⟨"https://project-finance-dashboard.onrender.com".data, rfl⟩, rfl,
    fetchBody_app_num d⟩

/-- Witness for C1 at the empty debounced record. -/
theorem C1_request_shape_witness :
    (fetchRequest_app []).method = "POST" ∧
    (fetchRequest_app []).contentType = "application/json" ∧
    (fetchRequest_app []).url = calcUrl ∧
    (∃ pre : List Char, calcUrl.data = pre ++ "/calculate-model".data) ∧
    ((fetchRequest_app []).payload.map Prod.fst =
      ["hard_costs", "soft_costs", "annual_production_mwh", "annual_revenue", "annual_opex",
       "tax_rate", "interest_rate", "debt_share", "project_duration_years"]) ∧
    (∀ kv ∈ (fetchRequest_app []).payload, ∃ q : ℚ, kv.2 = .num q) :=
  C1_request_shape []

/-- Claim C2: in every revision, an error during the network request or
the response decoding is caught and only logged: `data` is unchanged,
`loading` is reset to `false`, exactly one `console.error` is emitted, no
error state exists to store into, and exactly one request was issued (no
retry). -/
theorem C2_error_path (o : FetchOutcome) (data : Option (List (String × JSVal)))
    (h : o = .netError ∨ o = .decodeError) :
    ((fetchRun_app o data).data' = data ∧ (fetchRun_app o data).loading' = false ∧
      (fetchRun_app o data).errorLogs = 1 ∧ (fetchRun_app o data).posts = 1) ∧
    ((fetchRun_p1 o data).data' = data ∧ (fetchRun_p1 o data).loading' = false ∧
      (fetchRun_p1 o data).errorLogs = 1 ∧ (fetchRun_p1 o data).posts = 1) ∧
    ((fetchRun_ft2 o data).data' = data ∧ (fetchRun_ft2 o data).loading' = false ∧
      (fetchRun_ft2 o data).errorLogs = 1 ∧ (fetchRun_ft2 o data).posts = 1) := by
  rcases h with rfl | rfl <;>
    exact ⟨⟨rfl, rfl, rfl, rfl⟩, ⟨rfl, rfl, rfl, rfl⟩, ⟨rfl, rfl, rfl, rfl⟩⟩

/-- Witness for C2 at a network error with empty previous data. -/
theorem C2_error_path_witness :
    ((fetchRun_app .netError none).data' = none ∧ (fetchRun_app .netError none).loading' = false ∧
      (fetchRun_app .netError none).errorLogs = 1 ∧ (fetchRun_app .netError none).posts = 1) ∧
    ((fetchRun_p1 .netError none).data' = none ∧ (fetchRun_p1 .netError none).loading' = false ∧
      (fetchRun_p1 .netError none).errorLogs = 1 ∧ (fetchRun_p1 .netError none).posts = 1) ∧
    ((fetchRun_ft2 .netError none).data' = none ∧ (fetchRun_ft2 .netError none).loading' = false ∧
      (fetchRun_ft2 .netError none).errorLogs = 1 ∧ (fetchRun_ft2 .netError none).posts = 1) :=
  C2_error_path .netError none (Or.inl rfl)

/-- Claim C4: the plain-mode `SmartInput` blur handler — when the buffer
is the empty string or `isNaN` rejects it (the code's notion of "does not
parse as a number": `Number` coercion yields NaN), the buffer reverts to
the parent value and `onChange` is not called; otherwise `onChange` is
called with `parseFloat` of the buffer. -/
theorem C4_blur_plain (localValue value : JSVal) :
    ((localValue = .str "" ∨ jsIsNaN localValue = true) →
      handleBlur_plain localValue value =
        { newLocal := value, newFocused := false, onChangeArg := none }) ∧
    ((localValue ≠ .str "" ∧ jsIsNaN localValue = false) →
      handleBlur_plain localValue value =
        { newLocal := localValue, newFocused := false,
          onChangeArg := some (parseFloatV localValue) }) := by
  constructor
  · intro h
    rw [handleBlur_plain, if_pos h]
  · rintro ⟨h1, h2⟩
    rw [handleBlur_plain, if_neg]
    rintro (hc | hc)
    · exact h1 hc
    · rw [h2] at hc
      exact Bool.false_ne_true hc

/-- Witness for C4: an empty buffer reverts; the buffer `"2.5"` commits
`parseFloat("2.5")`. -/
theorem C4_blur_plain_witness :
    handleBlur_plain (.str "") (.num 7) =
      { newLocal := .num 7, newFocused := false, onChangeArg := none } ∧
    handleBlur_plain (.str "2.5") (.num 7) =
      { newLocal := .str "2.5", newFocused := false,
        onChangeArg := some (parseFloatV (.str "2.5")) } := by
  refine ⟨(C4_blur_plain (.str "") (.num 7)).1 (Or.inl rfl),
    (C4_blur_plain (.str "2.5") (.num 7)).2 ⟨by simp, ?_⟩⟩
  simp [jsIsNaN, jsToNumber, strToNumber, numLitCore, numLitTail, expFull, isWs, isDigitC,
    natOfDigits, digitValC, List.dropWhile, List.takeWhile]

/-- Claim C10: the second FinancialTable revision stores a parsed
response into `data` only when `result.annual_data` is truthy (a
response lacking the key leaves `data` unchanged), while the App.jsx and
part_001 revisions store every parsed response unconditionally. -/
theorem C10_annual_data_guard (r : List (String × JSVal)) (data : Option (List (String × JSVal))) :
    (jsTruthy (getField r "annual_data") = true →
      (fetchRun_ft2 (.ok r) data).data' = some r) ∧
    (jsTruthy (getField r "annual_data") = false →
      (fetchRun_ft2 (.ok r) data).data' = data) ∧
    (r.lookup "annual_data" = none →
      (fetchRun_ft2 (.ok r) data).data' = data) ∧
    (fetchRun_app (.ok r) data).data' = some r ∧
    (fetchRun_p1 (.ok r) data).data' = some r := by
  refine ⟨?_, ?_, ?_, rfl, rfl⟩
  · intro h
    simp [fetchRun_ft2, h]
  · intro h
    simp [fetchRun_ft2, h]
  · intro h
    simp [fetchRun_ft2, getField, h, jsTruthy]

/-- Witness for C10: a response without `annual_data` is dropped by the
guarded revision, one with it is stored, and the unguarded revision
stores anything. -/
theorem C10_annual_data_guard_witness :
    (fetchRun_ft2 (.ok [("summary_metrics", .num 1)]) (some [("x", .num 2)])).data' =
      some [("x", .num 2)] ∧
    (fetchRun_ft2 (.ok [("annual_data", .num 1), ("z", .num 3)]) none).data' =
      some [("annual_data", .num 1), ("z", .num 3)] ∧
    (fetchRun_app (.ok [("y", .num 4)]) none).data' = some [("y", .num 4)] := by
  refine ⟨(C10_annual_data_guard _ _).2.2.1 ?_,
    (C10_annual_data_guard _ _).1 ?_,
    (C10_annual_data_guard _ _).2.2.2.1⟩
  · simp [List.lookup]
  · norm_num [getField, jsTruthy, List.lookup]

/-- Counterexample to C3 as stated: the part_001 debounce cleans the raw
value `"1,000"` to 1000 (commas are stripped before parsing), while the
claimed formula `parseFloat(v) || 0` yields 1, because `parseFloat`
stops at the comma. -/
theorem C3_counterexample :
    cleanStep_p1 (.str "1,000") = .num 1000 ∧
    jsOr (parseFloatV (.str "1,000")) (.num 0) = .num 1 ∧
    cleanStep_p1 (.str "1,000") ≠ jsOr (parseFloatV (.str "1,000")) (.num 0) := by
  have hstrip : stripCommasStr "1,000" = "1000" := by decide
  have h1 : cleanStep_p1 (.str "1,000") = .num 1000 := by
    show jsOr (parseFloatV (.str (stripCommasStr "1,000"))) (.num 0) = .num 1000
    rw [hstrip]
    have hp : parseFloatStr "1000" = some 1000 := by
      simp [parseFloatStr, parseFloatL, parseFloatCore, applyExp, natOfDigits, digitValC,
        isDigitC, isWs, List.takeWhile, List.dropWhile]
    simp [parseFloatV, jsParseFloat, hp, jsOr, jsTruthy]
  have h2 : jsOr (parseFloatV (.str "1,000")) (.num 0) = .num 1 := by
    have hp : parseFloatStr "1,000" = some 1 := by
      simp [parseFloatStr, parseFloatL, parseFloatCore, applyExp, natOfDigits, digitValC,
        isDigitC, isWs, List.takeWhile, List.dropWhile]
    simp [parseFloatV, jsParseFloat, hp, jsOr, jsTruthy]
  refine ⟨h1, h2, ?_⟩
  rw [h1, h2]
  simp only [ne_eq, JSVal.num.injEq]
  norm_num

/-- Claim C3 (amended): the App.jsx and first-FinancialTable debounce
replaces each value `v` by `parseFloat(v) || 0`; the part_001 debounce
first strips commas from the stringified value (nullish becoming `'0'`)
and only then applies the same parse-or-zero; in every revision the
committed record has the same keys, every value is a finite number
(never NaN), and a value whose parse fails is coerced to 0. -/
theorem C3_debounce_clean (inputs : List (String × JSVal)) :
    ((debounceClean_app inputs).map Prod.fst = inputs.map Prod.fst) ∧
    ((debounceClean_p1 inputs).map Prod.fst = inputs.map Prod.fst) ∧
    (debounceClean_app inputs =
      inputs.map (fun kv => (kv.1, jsOr (parseFloatV kv.2) (.num 0)))) ∧
    (∀ s : String, cleanStep_p1 (.str s) =
      jsOr (parseFloatV (.str (stripCommasStr s))) (.num 0)) ∧
    (∀ kv ∈ debounceClean_app inputs, ∃ q : ℚ, kv.2 = .num q) ∧
    (∀ kv ∈ debounceClean_p1 inputs, ∃ q : ℚ, kv.2 = .num q) ∧
    (∀ v : JSVal, jsParseFloat v = none → cleanStep_app v = .num 0) := by
  refine ⟨?_, ?_, rfl, fun s => rfl, ?_, ?_, ?_⟩
  · simp [debounceClean_app]
  · simp [debounceClean_p1]
  · intro kv hkv
    simp only [debounceClean_app, List.mem_map] at hkv
    obtain ⟨ab, _, rfl⟩ := hkv
    exact cleanStep_app_num ab.2
  · intro kv hkv
    simp only [debounceClean_p1, List.mem_map] at hkv
    obtain ⟨ab, _, rfl⟩ := hkv
    exact cleanStep_p1_num ab.2
  · intro v h
    simp [cleanStep_app, parseFloatV, h, jsOr, jsTruthy]

/-- Witness for C3 (amended) at a one-field record holding `"1,000"`. -/
theorem C3_debounce_clean_witness :
    ((debounceClean_app [("hardCosts", .str "1,000")]).map Prod.fst =
      [("hardCosts", JSVal.str "1,000")].map Prod.fst) ∧
    ((debounceClean_p1 [("hardCosts", .str "1,000")]).map Prod.fst =
      [("hardCosts", JSVal.str "1,000")].map Prod.fst) ∧
    (debounceClean_app [("hardCosts", .str "1,000")] =
      [("hardCosts", JSVal.str "1,000")].map
        (fun kv => (kv.1, jsOr (parseFloatV kv.2) (.num 0)))) ∧
    (∀ s : String, cleanStep_p1 (.str s) =
      jsOr (parseFloatV (.str (stripCommasStr s))) (.num 0)) ∧
    (∀ kv ∈ debounceClean_app [("hardCosts", .str "1,000")], ∃ q : ℚ, kv.2 = .num q) ∧
    (∀ kv ∈ debounceClean_p1 [("hardCosts", .str "1,000")], ∃ q : ℚ, kv.2 = .num q) ∧
    (∀ v : JSVal, jsParseFloat v = none → cleanStep_app v = .num 0) :=
  C3_debounce_clean [("hardCosts", .str "1,000")]

/-- Counterexample to C7 as stated: with `-5` typed into the hard-costs
field, the cleaned debounced record sends `hard_costs = -5` — a negative
body field. -/
theorem C7_counterexample :
    ((fetchBody_app (debounceClean_app
        [("hardCosts", .str "-5"), ("softCosts", .num 1), ("production", .num 1),
         ("annualRevenue", .num 1), ("annualOpex", .num 1), ("taxRate", .num 0),
         ("interestRate", .num 0), ("debtShare", .num 0), ("projectDuration", .num 25)])).all
      (fun kv => isNonnegNum kv.2)) = false ∧
    getField (fetchBody_app (debounceClean_app
        [("hardCosts", .str "-5"), ("softCosts", .num 1), ("production", .num 1),
         ("annualRevenue", .num 1), ("annualOpex", .num 1), ("taxRate", .num 0),
         ("interestRate", .num 0), ("debtShare", .num 0), ("projectDuration", .num 25)]))
      "hard_costs" = .num (-5) := by
  constructor <;> with_unfolding_all decide

/-- Claim C7 (amended): every field of the request body is a finite
number for every raw user-typed record, in both the App.jsx pipeline
(debounce clean then `fetchData`) and the part_001 pipeline — but
non-negativity is not enforced. -/
theorem C7_body_numeric (raw : List (String × JSVal)) :
    (∀ kv ∈ fetchBody_app (debounceClean_app raw), ∃ q : ℚ, kv.2 = .num q) ∧
    (∀ kv ∈ fetchBody_p1 (debounceClean_p1 raw), ∃ q : ℚ, kv.2 = .num q) :=
  ⟨fetchBody_app_num _, fetchBody_p1_num _⟩

/-- Witness for C7 (amended) at the empty raw record. -/
theorem C7_body_numeric_witness :
    (∀ kv ∈ fetchBody_app (debounceClean_app []), ∃ q : ℚ, kv.2 = .num q) ∧
    (∀ kv ∈ fetchBody_p1 (debounceClean_p1 []), ∃ q : ℚ, kv.2 = .num q) :=
  C7_body_numeric []

/-- Claim C9: in every revision that sends `project_duration_years`
(App.jsx / first FinancialTable, and part_001), a debounced duration of
0, of the empty string, or non-numeric is replaced by the default 25
(`parseInt(...) || 25`); and on the all-zero record every other body
field is sent as 0 while the duration is sent as 25 — it is the only
field defaulting to 25 instead of 0. -/
theorem C9_duration_default (d : List (String × JSVal)) :
    ((getField d "projectDuration" = .num 0 ∨ getField d "projectDuration" = .str "" ∨
        jsParseInt (getField d "projectDuration") = none) →
      getField (fetchBody_app d) "project_duration_years" = .num 25) ∧
    ((getField d "projectDuration" = .num 0 ∨ getField d "projectDuration" = .str "" ∨
        cleanValue (getField d "projectDuration") = .num 0) →
      getField (fetchBody_p1 d) "project_duration_years" = .num 25) ∧
    (fetchBody_app [("hardCosts", .num 0), ("softCosts", .num 0), ("production", .num 0),
        ("annualRevenue", .num 0), ("annualOpex", .num 0), ("taxRate", .num 0),
        ("interestRate", .num 0), ("debtShare", .num 0), ("projectDuration", .num 0)] =
      [("hard_costs", .num 0), ("soft_costs", .num 0), ("annual_production_mwh", .num 0),
       ("annual_revenue", .num 0), ("annual_opex", .num 0), ("tax_rate", .num 0),
       ("interest_rate", .num 0), ("debt_share", .num 0),
       ("project_duration_years", .num 25)]) ∧
    (fetchBody_p1 [("hardCosts", .num 0), ("softCosts", .num 0), ("production", .num 0),
        ("annualRevenue", .num 0), ("annualOpex", .num 0), ("taxRate", .num 0),
        ("interestRate", .num 0), ("debtShare", .num 0), ("projectDuration", .num 0)] =
      [("hard_costs", .num 0), ("soft_costs", .num 0), ("annual_revenue", .num 0),
       ("annual_opex", .num 0), ("annual_production_mwh", .num 0), ("tax_rate", .num 0),
       ("interest_rate", .num 0), ("debt_share", .num 0),
       ("project_duration_years", .num 25)]) := by
  refine ⟨?_, ?_, by with_unfolding_all decide, by with_unfolding_all decide⟩
  · intro h
    have hgoal : getField (fetchBody_app d) "project_duration_years" =
        jsOr (parseIntV (getField d "projectDuration")) (.num 25) := by
      simp [fetchBody_app, getField, List.lookup]
    rw [hgoal]
    rcases h with h0 | h0 | h0
    · rw [h0]
      simp [parseIntV, jsParseInt, truncQ, Int.floor_zero, jsOr, jsTruthy]
    · rw [h0]
      simp [parseIntV, jsParseInt, parseIntL, jsOr, jsTruthy, List.dropWhile]
    · simp [parseIntV, h0, jsOr, jsTruthy]
  · intro h
    have hgoal : getField (fetchBody_p1 d) "project_duration_years" =
        jsOr (parseIntV (cleanValue (getField d "projectDuration"))) (.num 25) := by
      simp [fetchBody_p1, getField, List.lookup]
    rw [hgoal]
    have hzero : ∀ v : JSVal, v = .num 0 →
        jsOr (parseIntV v) (.num 25) = .num 25 := by
      rintro v rfl
      simp [parseIntV, jsParseInt, truncQ, Int.floor_zero, jsOr, jsTruthy]
    rcases h with h0 | h0 | h0
    · rw [h0]
      apply hzero
      simp [cleanValue, parseFloatV, jsParseFloat, jsOr, jsTruthy]
    · rw [h0]
      apply hzero
      simp [cleanValue, stripCommasStr, stripCommasL, parseFloatV, jsParseFloat, parseFloatStr,
        parseFloatL, List.filter, List.dropWhile, jsOr, jsTruthy]
    · rw [h0]
      apply hzero
      rfl

/-- Witness for C9: a duration field holding 0 is sent as 25 by both
body builders. -/
theorem C9_duration_default_witness :
    getField (fetchBody_app [("projectDuration", JSVal.num 0)]) "project_duration_years" =
      .num 25 ∧
    getField (fetchBody_p1 [("projectDuration", JSVal.num 0)]) "project_duration_years" =
      .num 25 :=
  ⟨(C9_duration_default [("projectDuration", JSVal.num 0)]).1
      (Or.inl (by with_unfolding_all decide)),
   (C9_duration_default [("projectDuration", JSVal.num 0)]).2.1
      (Or.inl (by with_unfolding_all decide))⟩

/-- Claim C5: `sanitizeNumericInput` returns only digits and at most one
dot: every comma and every other non-digit, non-dot character is removed
(the digits of the input are kept in order), only the first decimal
point survives when several are present, and with at most one dot the
digit/dot projection of the input — including a trailing dot such as
`"10."` — is returned unchanged. -/
theorem C5_sanitize (s : String) :
    (∀ c ∈ (sanitizeNumericInput s).data, isDigitC c = true ∨ c = '.') ∧
    ((sanitizeNumericInput s).data.count '.' ≤ 1) ∧
    ((sanitizeNumericInput s).data.filter (fun c => c ≠ '.') = s.data.filter isDigitC) ∧
    ((s.data.filter (fun c => isDigitC c || c = '.')).count '.' ≤ 1 →
      (sanitizeNumericInput s).data = s.data.filter (fun c => isDigitC c || c = '.')) ∧
    (2 ≤ (s.data.filter (fun c => isDigitC c || c = '.')).count '.' →
      (sanitizeNumericInput s).data =
        (s.data.filter (fun c => isDigitC c || c = '.')).takeWhile (fun c => c ≠ '.') ++
          '.' :: (splitDot (s.data.filter (fun c => isDigitC c || c = '.'))).2.flatten) ∧
    sanitizeNumericInput "10." = "10." := by
  have clchars : ∀ c ∈ s.data.filter (fun c => isDigitC c || c = '.'),
      isDigitC c = true ∨ c = '.' := by
    intro c hc
    have := List.of_mem_filter hc
    simpa using this
  have hclf : (s.data.filter (fun c => isDigitC c || c = '.')).filter (fun c => c ≠ '.') =
      s.data.filter isDigitC := by
    rw [List.filter_filter]
    apply List.filter_congr
    intro c _
    by_cases hd : isDigitC c = true
    · simp [hd, isDigitC_ne_dot c hd]
    · by_cases he : c = '.'
      · subst he
        decide
      · simp [hd, he]
  have hnodot1 : ∀ c ∈ (splitDot (s.data.filter (fun c => isDigitC c || c = '.'))).1,
      c ≠ '.' := splitDot_head_no_dot _
  have hnodot2 : ∀ c ∈ (splitDot (s.data.filter (fun c => isDigitC c || c = '.'))).2.flatten,
      c ≠ '.' := by
    intro c hc
    obtain ⟨r, hr, hcr⟩ := List.mem_flatten.mp hc
    exact splitDot_parts_no_dot _ r hr c hcr
  have hsplitf := splitDot_filter (s.data.filter (fun c => isDigitC c || c = '.'))
  by_cases hcnt : (s.data.filter (fun c => isDigitC c || c = '.')).count '.' ≤ 1
  · have hsan := sanitize_eq_low s hcnt
    refine ⟨?_, ?_, ?_, fun _ => hsan, ?_, by decide⟩
    · rw [hsan]
      exact clchars
    · rw [hsan]
      exact hcnt
    · rw [hsan]
      exact hclf
    · intro h2
      omega
  · have h2 : 2 ≤ (s.data.filter (fun c => isDigitC c || c = '.')).count '.' := by omega
    have hsan := sanitize_eq_high s h2
    have hsan2 : (sanitizeNumericInput s).data =
        (s.data.filter (fun c => isDigitC c || c = '.')).takeWhile (fun c => c ≠ '.') ++
          '.' :: (splitDot (s.data.filter (fun c => isDigitC c || c = '.'))).2.flatten := by
      rw [hsan, splitDot_head_takeWhile]
    refine ⟨?_, ?_, ?_, fun hc1 => absurd hc1 (by omega), fun _ => hsan2, by decide⟩
    · rw [hsan]
      intro c hc
      rcases List.mem_append.mp hc with hc | hc
      · have hmem : c ∈ (s.data.filter (fun c => isDigitC c || c = '.')).filter
            (fun c => c ≠ '.') := by
          rw [hsplitf]
          exact List.mem_append.mpr (Or.inl hc)
        exact clchars c (List.mem_of_mem_filter hmem)
      · rcases List.mem_cons.mp hc with rfl | hc
        · exact Or.inr rfl
        · have hmem : c ∈ (s.data.filter (fun c => isDigitC c || c = '.')).filter
              (fun c => c ≠ '.') := by
            rw [hsplitf]
            exact List.mem_append.mpr (Or.inr hc)
          exact clchars c (List.mem_of_mem_filter hmem)
    · rw [hsan]
      have hc1 : ((splitDot (s.data.filter (fun c => isDigitC c || c = '.'))).1).count '.' = 0 :=
        List.count_eq_zero.mpr (fun hmem => hnodot1 '.' hmem rfl)
      have hc2 : ((splitDot (s.data.filter (fun c => isDigitC c || c = '.'))).2.flatten).count '.'
          = 0 := List.count_eq_zero.mpr (fun hmem => hnodot2 '.' hmem rfl)
      simp [List.count_append, List.count_cons, hc1, hc2]
    · have hf1 : ((splitDot (s.data.filter (fun c => isDigitC c || c = '.'))).1).filter
          (fun c => c ≠ '.') = (splitDot (s.data.filter (fun c => isDigitC c || c = '.'))).1 :=
        List.filter_eq_self.mpr (fun c hc => by simpa using hnodot1 c hc)
      have hf2 : ((splitDot (s.data.filter (fun c => isDigitC c || c = '.'))).2.flatten).filter
          (fun c => c ≠ '.') =
          (splitDot (s.data.filter (fun c => isDigitC c || c = '.'))).2.flatten :=
        List.filter_eq_self.mpr (fun c hc => by simpa using hnodot2 c hc)
      rw [hsan, List.filter_append, List.filter_cons]
      have hd : (('.' : Char) ≠ '.' : Bool) = false := by simp
      simp only [hd, Bool.false_eq_true, ite_false]
      rw [hf1, hf2, ← hsplitf, hclf]

/-- Witness for C5 at the input `"1,2.3.4"`. -/
theorem C5_sanitize_witness :
    (∀ c ∈ (sanitizeNumericInput "1,2.3.4").data, isDigitC c = true ∨ c = '.') ∧
    ((sanitizeNumericInput "1,2.3.4").data.count '.' ≤ 1) ∧
    ((sanitizeNumericInput "1,2.3.4").data.filter (fun c => c ≠ '.') =
      "1,2.3.4".data.filter isDigitC) ∧
    (("1,2.3.4".data.filter (fun c => isDigitC c || c = '.')).count '.' ≤ 1 →
      (sanitizeNumericInput "1,2.3.4").data =
        "1,2.3.4".data.filter (fun c => isDigitC c || c = '.')) ∧
    (2 ≤ ("1,2.3.4".data.filter (fun c => isDigitC c || c = '.')).count '.' →
      (sanitizeNumericInput "1,2.3.4").data =
        ("1,2.3.4".data.filter (fun c => isDigitC c || c = '.')).takeWhile (fun c => c ≠ '.') ++
          '.' :: (splitDot ("1,2.3.4".data.filter (fun c => isDigitC c || c = '.'))).2.flatten) ∧
    sanitizeNumericInput "10." = "10." :=
  C5_sanitize "1,2.3.4"

/-- Claim C6: for every non-negative finite number `n`, stripping the
commas from the accounting-formatted string and parsing it back recovers
`n` rounded to two decimals: `parseFloat(cleanNumber(formatNumber(n)))`
and `cleanValue(formatNumber(n))` both equal `Math.round(100*n)/100`. -/
theorem C6_accounting_roundTrip (q : ℚ) (h : 0 ≤ q) :
    parseFloatStr (cleanNumber (formatNumber (.num q))) = some (round2 q) ∧
    cleanValue (.str (formatNumber (.num q))) = .num (round2 q) :=
  ⟨parse_clean_format q h, cleanValue_format q h⟩

/-- Witness for C6 at `n = 5/4` (formatted `"1.25"`, already exact at
two decimals). -/
theorem C6_accounting_roundTrip_witness :
    (0 : ℚ) ≤ 5 / 4 ∧
    parseFloatStr (cleanNumber (formatNumber (.num (5 / 4)))) = some (5 / 4) ∧
    cleanValue (.str (formatNumber (.num (5 / 4)))) = .num (5 / 4) := by
  have hr : round2 (5 / 4 : ℚ) = 5 / 4 := by
    with_unfolding_all decide
  have h := C6_accounting_roundTrip (5 / 4) (by norm_num)
  obtain ⟨h1, h2⟩ := h
  rw [hr] at h1 h2
  exact ⟨by norm_num, h1, h2⟩

/-- Claim C8: in the App.jsx debounce/fetch machine, after any event
sequence at most one timeout is scheduled (each `inputs` change cancels
the previous one before scheduling a new 800 ms timer), the pending
timeout is due `debounceDelay` after the last change and captures the
final input state of the settle period, the number of requests started
equals the number of debounce commits plus the mount fetch (exactly one
new fetch per committed change), and started requests are never
cancelled (they are exactly the in-flight plus the completed ones);
moreover any fire that commits stores the cleaned current inputs and
starts exactly one request. -/
theorem C8_debounce_temporal (inputs0 : List (String × JSVal)) (evs : List DEvent) :
    ((runDash (initDash inputs0) evs).live.length ≤ 1) ∧
    (∀ t ∈ (runDash (initDash inputs0) evs).live,
      t.2.1 = (runDash (initDash inputs0) evs).lastChangeAt + debounceDelay ∧
      t.2.2 = (runDash (initDash inputs0) evs).inputs) ∧
    ((runDash (initDash inputs0) evs).fetchesStarted =
      (runDash (initDash inputs0) evs).commits + 1) ∧
    ((runDash (initDash inputs0) evs).inflight + (runDash (initDash inputs0) evs).completed =
      (runDash (initDash inputs0) evs).fetchesStarted) ∧
    (∀ s : DashState, dashInv s → (stepDash s .fire).commits = s.commits + 1 →
      (stepDash s .fire).debounced = debounceClean_app s.inputs ∧
      (stepDash s .fire).fetchesStarted = s.fetchesStarted + 1) := by
  obtain ⟨h1, h2, h3, h4⟩ := dashInv_run inputs0 evs
  exact ⟨h1, fun t ht => ⟨(h2 t ht).2.1, (h2 t ht).2.2⟩, h3, h4,
    fun s hs hc => fire_commit s hs hc⟩

/-- Witness for C8 on a concrete trace: one edit, 800 ms, one fire. -/
theorem C8_debounce_temporal_witness :
    ((runDash (initDash [("production", JSVal.num 1)])
        [.change [("production", JSVal.str "2")], .advance 800, .fire]).live.length ≤ 1) ∧
    (∀ t ∈ (runDash (initDash [("production", JSVal.num 1)])
        [.change [("production", JSVal.str "2")], .advance 800, .fire]).live,
      t.2.1 = (runDash (initDash [("production", JSVal.num 1)])
        [.change [("production", JSVal.str "2")], .advance 800, .fire]).lastChangeAt +
          debounceDelay ∧
      t.2.2 = (runDash (initDash [("production", JSVal.num 1)])
        [.change [("production", JSVal.str "2")], .advance 800, .fire]).inputs) ∧
    ((runDash (initDash [("production", JSVal.num 1)])
        [.change [("production", JSVal.str "2")], .advance 800, .fire]).fetchesStarted =
      (runDash (initDash [("production", JSVal.num 1)])
        [.change [("production", JSVal.str "2")], .advance 800, .fire]).commits + 1) ∧
    ((runDash (initDash [("production", JSVal.num 1)])
        [.change [("production", JSVal.str "2")], .advance 800, .fire]).inflight +
      (runDash (initDash [("production", JSVal.num 1)])
        [.change [("production", JSVal.str "2")], .advance 800, .fire]).completed =
      (runDash (initDash [("production", JSVal.num 1)])
        [.change [("production", JSVal.str "2")], .advance 800, .fire]).fetchesStarted) ∧
    (∀ s : DashState, dashInv s → (stepDash s .fire).commits = s.commits + 1 →
      (stepDash s .fire).debounced = debounceClean_app s.inputs ∧
      (stepDash s .fire).fetchesStarted = s.fetchesStarted + 1) :=
  C8_debounce_temporal [("production", JSVal.num 1)]
    [.change [("production", JSVal.str "2")], .advance 800, .fire]

/-! ## Concrete sanity checks of the builtin models -/

example : parseFloatStr "1,000" = some 1 := by
  simp [parseFloatStr, parseFloatL, parseFloatCore, applyExp, natOfDigits, digitValC,
    isDigitC, isWs, List.takeWhile, List.dropWhile]
example : parseFloatStr "1000000" = some 1000000 := by
  simp [parseFloatStr, parseFloatL, parseFloatCore, applyExp, natOfDigits, digitValC,
    isDigitC, isWs, List.takeWhile, List.dropWhile]
example : parseFloatStr "" = none := by
  simp [parseFloatStr, parseFloatL]
example : parseFloatStr "-5" = some (-5) := by
  simp [parseFloatStr, parseFloatL, parseFloatCore, applyExp, natOfDigits, digitValC,
    isDigitC, isWs, List.takeWhile, List.dropWhile]
example : parseFloatStr "10." = some 10 := by
  simp [parseFloatStr, parseFloatL, parseFloatCore, applyExp, natOfDigits, digitValC,
    isDigitC, isWs, List.takeWhile, List.dropWhile]
example : parseFloatStr ".5" = some (1/2) := by
  simp [parseFloatStr, parseFloatL, parseFloatCore, applyExp, natOfDigits, digitValC,
    isDigitC, isWs, List.takeWhile, List.dropWhile]
  norm_num
example : parseFloatStr "1.5e2" = some 150 := by
  simp [parseFloatStr, parseFloatL, parseFloatCore, applyExp, expScale, natOfDigits,
    digitValC, isDigitC, isWs, List.takeWhile, List.dropWhile]
  norm_num
example : parseFloatStr "abc" = none := by
  simp [parseFloatStr, parseFloatL, parseFloatCore, applyExp, natOfDigits, digitValC,
    isDigitC, isWs, List.takeWhile, List.dropWhile]
example : parseIntL "12.9".data = some 12 := by
  simp [parseIntL, natOfDigits, digitValC, isDigitC, isWs, List.takeWhile, List.dropWhile]
example : parseIntL "".data = none := by
  simp [parseIntL]
example : strToNumber "  " = some 0 := by
  simp [strToNumber, isWs, List.dropWhile]
example : strToNumber "12abc" = none := by
  simp [strToNumber, numLitCore, numLitTail, expFull, natOfDigits, digitValC,
    isDigitC, isWs, List.takeWhile, List.dropWhile]
example : strToNumber "10." = some 10 := by
  simp [strToNumber, numLitCore, numLitTail, expFull, natOfDigits, digitValC,
    isDigitC, isWs, List.takeWhile, List.dropWhile]
example : strToNumber "1e" = none := by
  simp [strToNumber, numLitCore, numLitTail, expFull, natOfDigits, digitValC,
    isDigitC, isWs, List.takeWhile, List.dropWhile]

